import Mathlib

/-!
Verification of the Blackjack client/server repository
(`protocol.py`, `server.py`, `client.py`).

Byte strings are modelled as `List Nat` (each element a byte value 0..255);
names are modelled by their UTF-8 byte sequences. Big-endian multi-byte
integers are packed and read explicitly. Fallible decode operations return
`Except String`, carrying the exact error message raised in the source.
-/

deriving instance DecidableEq for Except

namespace Blackjack

/-! ### Constants (protocol.py) -/

def MAGIC_COOKIE : Nat := 0xabcddcba

def OFFER_TYPE : Nat := 0x2

def REQUEST_TYPE : Nat := 0x3

def PAYLOAD_TYPE : Nat := 0x4

def TEAM_NAME_LEN : Nat := 32

def RESULT_NOT_OVER : Nat := 0x0

def RESULT_TIE : Nat := 0x1

def RESULT_LOSS : Nat := 0x2

def RESULT_WIN : Nat := 0x3

/-- `DECISION_HIT = b"Hittt"` as UTF-8 bytes. -/
def DECISION_HIT : List Nat := [72, 105, 116, 116, 116]

/-- `DECISION_STAND = b"Stand"` as UTF-8 bytes. -/
def DECISION_STAND : List Nat := [83, 116, 97, 110, 100]

/-! ### Big-endian byte packing (the `struct` format codes `!I`, `!H`, `!B`) -/

/-- Pack a 16-bit integer big-endian (`struct` code `H`). -/
def be2 (n : Nat) : List Nat := [n / 256 % 256, n % 256]

/-- Pack a 32-bit integer big-endian (`struct` code `I`). -/
def be4 (n : Nat) : List Nat :=
  [n / 16777216 % 256, n / 65536 % 256, n / 256 % 256, n % 256]

/-- Read a big-endian integer from its byte list. -/
def readBE (l : List Nat) : Nat := l.foldl (fun acc b => acc * 256 + b) 0

/-! ### Name helpers (protocol.py `encode_team_name` / `decode_team_name`) -/

/-- `encode_team_name`: truncate to `TEAM_NAME_LEN` bytes if longer,
otherwise pad with null bytes to the fixed length. -/
def encode_team_name (raw : List Nat) : List Nat :=
  if raw.length > TEAM_NAME_LEN then raw.take TEAM_NAME_LEN
  else raw ++ List.replicate (TEAM_NAME_LEN - raw.length) 0

/-- `decode_team_name`: the bytes before the first null byte
(`raw.split(b"\x00", 1)[0]`). -/
def decode_team_name (raw : List Nat) : List Nat :=
  raw.takeWhile (fun b => b != 0)

/-! ### Offer (protocol.py) — format `!I B H 32s`, 39 bytes -/

def OFFER_SIZE : Nat := 4 + 1 + 2 + 32

def pack_offer (tcp_port : Nat) (server_name : List Nat) : List Nat :=
  be4 MAGIC_COOKIE ++ [OFFER_TYPE] ++ be2 tcp_port ++ encode_team_name server_name

def unpack_offer (data : List Nat) : Except String (Nat × List Nat) :=
  if data.length < OFFER_SIZE then Except.error "Offer packet too short"
  else
    let d := data.take OFFER_SIZE
    let cookie := readBE (d.take 4)
    let msg_type := d.getD 4 0
    let tcp_port := readBE ((d.drop 5).take 2)
    let raw_name := d.drop 7
    if cookie ≠ MAGIC_COOKIE ∨ msg_type ≠ OFFER_TYPE then
      Except.error "Invalid offer packet"
    else Except.ok (tcp_port, decode_team_name raw_name)

/-! ### Request (protocol.py) — format `!I B B 32s`, 38 bytes -/

def REQUEST_SIZE : Nat := 4 + 1 + 1 + 32

def pack_request (rounds : Nat) (client_name : List Nat) : List Nat :=
  be4 MAGIC_COOKIE ++ [REQUEST_TYPE, rounds] ++ encode_team_name client_name

def unpack_request (data : List Nat) : Except String (Nat × List Nat) :=
  if data.length < REQUEST_SIZE then Except.error "Request packet too short"
  else
    let d := data.take REQUEST_SIZE
    let cookie := readBE (d.take 4)
    let msg_type := d.getD 4 0
    let rounds := d.getD 5 0
    let raw_name := d.drop 6
    if cookie ≠ MAGIC_COOKIE ∨ msg_type ≠ REQUEST_TYPE then
      Except.error "Invalid request packet"
    else Except.ok (rounds, decode_team_name raw_name)

/-! ### Client payload (protocol.py) — format `!I B 5s`, 10 bytes -/

def CLIENT_PAYLOAD_SIZE : Nat := 4 + 1 + 5

/-- ASCII lower-casing of one character, modelling Python `str.lower`
on the ASCII decision strings involved here. -/
def lowerChar (c : Char) : Char :=
  if 65 ≤ c.toNat ∧ c.toNat ≤ 90 then Char.ofNat (c.toNat + 32) else c

/-- `decision.lower()` on ASCII strings. -/
def lowerStr (s : String) : String := String.mk (s.data.map lowerChar)

def pack_client_payload (decision : String) : Except String (List Nat) :=
  if lowerStr decision = "hit" then
    Except.ok (be4 MAGIC_COOKIE ++ [PAYLOAD_TYPE] ++ DECISION_HIT)
  else if lowerStr decision = "stand" then
    Except.ok (be4 MAGIC_COOKIE ++ [PAYLOAD_TYPE] ++ DECISION_STAND)
  else Except.error "Invalid decision"

/-- `raw.rstrip(b"\x00")`: drop trailing null bytes. -/
def rstripNull (l : List Nat) : List Nat :=
  (l.reverse.dropWhile (fun b => b == 0)).reverse

def unpack_client_payload (data : List Nat) : Except String String :=
  if data.length < CLIENT_PAYLOAD_SIZE then Except.error "Client payload too short"
  else
    let d := data.take CLIENT_PAYLOAD_SIZE
    let cookie := readBE (d.take 4)
    let msg_type := d.getD 4 0
    let raw_decision := d.drop 5
    if cookie ≠ MAGIC_COOKIE ∨ msg_type ≠ PAYLOAD_TYPE then
      Except.error "Invalid client payload"
    else
      let decision := rstripNull raw_decision
      if decision = DECISION_HIT then Except.ok "Hit"
      else if decision = DECISION_STAND then Except.ok "Stand"
      else Except.error "Unknown decision"

/-! ### Server payload (protocol.py) — format `!I B B H B`, 9 bytes -/

def SERVER_PAYLOAD_SIZE : Nat := 4 + 1 + 1 + 2 + 1

def pack_server_payload (result rank suit : Nat) : List Nat :=
  be4 MAGIC_COOKIE ++ [PAYLOAD_TYPE, result] ++ be2 rank ++ [suit]

def unpack_server_payload (data : List Nat) : Except String (Nat × Nat × Nat) :=
  if data.length < SERVER_PAYLOAD_SIZE then Except.error "Server payload too short"
  else
    let d := data.take SERVER_PAYLOAD_SIZE
    let cookie := readBE (d.take 4)
    let msg_type := d.getD 4 0
    let result := d.getD 5 0
    let rank := readBE ((d.drop 6).take 2)
    let suit := d.getD 8 0
    if cookie ≠ MAGIC_COOKIE ∨ msg_type ≠ PAYLOAD_TYPE then
      Except.error "Invalid server payload"
    else Except.ok (result, rank, suit)

/-! ### Fixed read sizes used by the receivers (server.py / client.py) -/

/-- `server.py`: `REQUEST_SIZE = 38`, the byte count `recv_exact` reads per request. -/
def serverReadRequestSize : Nat := 38

/-- `server.py`: `CLIENT_PAYLOAD_SIZE = 10`, bytes read per client decision. -/
def serverReadClientPayloadSize : Nat := 10

/-- `client.py`: `SERVER_PAYLOAD_SIZE = 9`, bytes read per server event. -/
def clientReadServerPayloadSize : Nat := 9

/-! ### Card and deck model (server.py) -/

abbrev Card := Nat × Nat

def SUITS : List Nat := [0, 1, 2, 3]

def RANKS : List Nat := List.range' 1 13

/-- The card list built by `Deck.__init__` before shuffling:
`[(rank, suit) for suit in SUITS for rank in RANKS]`. Shuffling is a
permutation, so deck-level facts are stated for any permutation of this list. -/
def Deck.initCards : List Card :=
  SUITS.flatMap (fun suit => RANKS.map (fun rank => (rank, suit)))

/-- `Deck.draw`: `self.cards.pop()` removes and returns the LAST element of
the card list; `none` models the `IndexError` of popping an empty list. -/
def Deck.draw (cards : List Card) : Option (Card × List Card) :=
  match cards.reverse with
  | [] => none
  | c :: rest => some (c, rest.reverse)

/-- `n` successive draws from a deck: the drawn cards in draw order and the
remaining deck; `none` on exhaustion. -/
def drawSeq : Nat → List Card → Option (List Card × List Card)
  | 0, d => some ([], d)
  | n + 1, d =>
    match Deck.draw d with
    | none => none
    | some (c, d') =>
      match drawSeq n d' with
      | none => none
      | some (cs, rest) => some (c :: cs, rest)

def card_value (rank : Nat) : Nat :=
  if rank = 1 then 11
  else if rank ≥ 11 then 10
  else rank

def hand_value (hand : List Card) : Nat :=
  (hand.map (fun c => card_value c.1)).sum

/-! ### Round engine (server.py `handle_client`, lines 169–258)

A server payload message is modelled by its field triple
`(result, rank, suit)`; the wire bytes are `pack_server_payload` applied to
it. A round's input is the shuffled deck and the client's scripted
decisions; the output trace records the hands, the bust flag, the cards
drawn in each phase, the outcome and the full ordered message sequence. -/

inductive Decision where
  | hit : Decision
  | stand : Decision
deriving DecidableEq, Repr

/-- A server event message, by fields: (result, rank, suit). -/
abbrev Msg := Nat × Nat × Nat

/-- The not-over event carrying one card. -/
def notOverMsg (c : Card) : Msg := (RESULT_NOT_OVER, c.1, c.2)

/-- Player-turn loop: on `hit` draw a card, append it to the hand and send
it; break with `player_bust = true` as soon as the total exceeds 21; on
`stand` break. Returns (final hand, remaining deck, bust flag, cards drawn
in order); `none` models blocking forever on an exhausted decision script
or the fault of drawing from an empty deck. -/
def playerTurn : List Decision → List Card → List Card →
    Option (List Card × List Card × Bool × List Card)
  | [], _, _ => none
  | Decision.stand :: _, hand, deck => some (hand, deck, false, [])
  | Decision.hit :: ds, hand, deck =>
    match Deck.draw deck with
    | none => none
    | some (c, deck') =>
      let hand' := hand ++ [c]
      if hand_value hand' > 21 then some (hand', deck', true, [c])
      else
        match playerTurn ds hand' deck' with
        | none => none
        | some (h, dk, b, drawn) => some (h, dk, b, c :: drawn)

/-- Dealer-turn loop body: `while hand_value(dealer_hand) < 17: draw`.
Since `Deck.draw` pops from the END of the card list, the loop is run over
the REVERSED remaining deck so that each draw is a head pop (structural
recursion). Returns (final dealer hand, remaining reversed deck, drawn
cards in order). -/
def dealerLoop (dealer : List Card) : List Card →
    Option (List Card × List Card × List Card)
  | [] =>
    if hand_value dealer < 17 then none
    else some (dealer, [], [])
  | c :: rest =>
    if hand_value dealer < 17 then
      match dealerLoop (dealer ++ [c]) rest with
      | none => none
      | some (dl, pileRest, drawn) => some (dl, pileRest, c :: drawn)
    else some (dealer, c :: rest, [])

/-- Dealer turn on the deck as stored (draws pop from the end). -/
def dealerTurn (dealer deck : List Card) :
    Option (List Card × List Card × List Card) :=
  match dealerLoop dealer deck.reverse with
  | none => none
  | some (dl, pileRest, drawn) => some (dl, pileRest.reverse, drawn)

/-- The dealer phase after the hidden-card reveal: additional dealer cards
are drawn only if the player did not bust (server.py line 226). -/
def dealerStep (player_bust : Bool) (dealer deck : List Card) :
    Option (List Card × List Card × List Card) :=
  if player_bust then some (dealer, deck, [])
  else dealerTurn dealer deck

/-- The outcome block of `handle_client` (lines 239–249). -/
def decideResult (player_bust : Bool) (dealer_total player_total : Nat) : Nat :=
  if player_bust then RESULT_LOSS
  else if dealer_total > 21 then RESULT_WIN
  else if dealer_total > player_total then RESULT_LOSS
  else if dealer_total < player_total then RESULT_WIN
  else RESULT_TIE

/-- Everything one round produces that is observable. -/
structure RoundTrace where
  playerHand : List Card
  dealerHand : List Card
  hidden : Card
  playerBust : Bool
  playerDrawn : List Card
  dealerDrawn : List Card
  result : Nat
  msgs : List Msg
deriving DecidableEq, Repr

/-- One complete round of `handle_client`: deal two player cards and two
dealer cards, send the player's cards and the dealer's visible card, run
the player turn, always reveal the dealer's hidden card, run the dealer
turn unless the player busted, then send the single terminal message. -/
def playRound (deck0 : List Card) (decisions : List Decision) :
    Option RoundTrace :=
  match Deck.draw deck0 with
  | none => none
  | some (p1, deck1) =>
  match Deck.draw deck1 with
  | none => none
  | some (p2, deck2) =>
  match Deck.draw deck2 with
  | none => none
  | some (d1, deck3) =>
  match Deck.draw deck3 with
  | none => none
  | some (d2, deck4) =>
    let player_hand := [p1, p2]
    let dealer_hand := [d1, d2]
    match playerTurn decisions player_hand deck4 with
    | none => none
    | some (player_hand', deck5, player_bust, pDrawn) =>
      match dealerStep player_bust dealer_hand deck5 with
      | none => none
      | some (dealer_hand', _deck6, dDrawn) =>
        let result :=
          decideResult player_bust (hand_value dealer_hand') (hand_value player_hand')
        some {
          playerHand := player_hand'
          dealerHand := dealer_hand'
          hidden := d2
          playerBust := player_bust
          playerDrawn := pDrawn
          dealerDrawn := dDrawn
          result := result
          msgs := [notOverMsg p1, notOverMsg p2, notOverMsg d1]
                    ++ pDrawn.map notOverMsg
                    ++ [notOverMsg d2]
                    ++ dDrawn.map notOverMsg
                    ++ [(result, 0, 0)] }

/-- The session loop `for r in range(1, rounds + 1)`: play `rounds` rounds
sequentially, round `r` consuming the `r`-th (deck, decisions) input.
`rounds = 0` plays no round and completes normally with an empty trace
list, after which the connection is closed. -/
def runRounds : Nat → List (List Card × List Decision) → Option (List RoundTrace)
  | 0, _ => some []
  | _ + 1, [] => none
  | n + 1, (deck, ds) :: rest =>
    match playRound deck ds with
    | none => none
    | some tr =>
      match runRounds n rest with
      | none => none
      | some trs => some (tr :: trs)

/-! ### Concrete example rounds (used to witness the round theorems)

Decks list cards bottom-to-top; `Deck.draw` pops from the end. -/

def deckA : List Card := [(5, 0), (9, 1), (10, 0), (7, 1), (10, 2), (10, 3)]

/-- The trace of playing `deckA` with an immediate stand: player 20,
dealer 17, no dealer draw, WIN. -/
def traceA : RoundTrace := {
  playerHand := [(10, 3), (10, 2)]
  dealerHand := [(7, 1), (10, 0)]
  hidden := (10, 0)
  playerBust := false
  playerDrawn := []
  dealerDrawn := []
  result := 3
  msgs := [(0, 10, 3), (0, 10, 2), (0, 7, 1), (0, 10, 0), (3, 0, 0)] }

def deckB : List Card := [(2, 2), (5, 2), (6, 1), (10, 1), (9, 0), (10, 0)]

/-- The trace of playing `deckB` with an immediate stand: player 19,
dealer 16 then drawing to 21, LOSS. -/
def traceB : RoundTrace := {
  playerHand := [(10, 0), (9, 0)]
  dealerHand := [(10, 1), (6, 1), (5, 2)]
  hidden := (6, 1)
  playerBust := false
  playerDrawn := []
  dealerDrawn := [(5, 2)]
  result := 2
  msgs := [(0, 10, 0), (0, 9, 0), (0, 10, 1), (0, 6, 1), (0, 5, 2), (2, 0, 0)] }

/-! ## Helper lemmas -/

theorem Deck.draw_some (d : List Card) (c : Card) (d' : List Card)
    (h : Deck.draw d = some (c, d')) : d = d' ++ [c] := by
  unfold Deck.draw at h
  cases hr : d.reverse with
  | nil => rw [hr] at h; simp at h
  | cons x rest =>
    rw [hr] at h
    simp only [Option.some.injEq, Prod.mk.injEq] at h
    obtain ⟨rfl, rfl⟩ := h
    have hd : d = rest.reverse ++ [x] := by
      have h2 := congrArg List.reverse hr
      simpa using h2
    exact hd

theorem Deck.draw_none_iff (d : List Card) : Deck.draw d = none ↔ d = [] := by
  unfold Deck.draw
  cases hr : d.reverse with
  | nil =>
    have hd : d = [] := by simpa using congrArg List.reverse hr
    simp [hd]
  | cons x rest =>
    have hd : d = rest.reverse ++ [x] := by
      have h2 := congrArg List.reverse hr
      simpa using h2
    simp [hd]

theorem drawSeq_full : ∀ (n : Nat) (d : List Card), d.length = n →
    drawSeq n d = some (d.reverse, []) := by
  intro n
  induction n with
  | zero =>
    intro d hd
    rw [List.length_eq_zero] at hd
    subst hd
    rfl
  | succ n ih =>
    intro d hd
    cases hr : d.reverse with
    | nil =>
      have hd0 : d = [] := by simpa using congrArg List.reverse hr
      rw [hd0] at hd
      simp at hd
    | cons c rest =>
      have hdrev : d = rest.reverse ++ [c] := by
        have h2 := congrArg List.reverse hr
        simpa using h2
      have hdraw : Deck.draw d = some (c, rest.reverse) := by
        unfold Deck.draw
        rw [hr]
      have hlen : rest.reverse.length = n := by
        rw [hdrev] at hd
        simp at hd
        simpa using hd
      rw [drawSeq]
      simp only [hdraw, ih rest.reverse hlen]
      simp [hr]

theorem getD_take_of_lt (l : List Nat) (n i : Nat) (h : i < n) :
    (l.take n).getD i 0 = l.getD i 0 := by
  induction l generalizing n i with
  | nil => simp
  | cons a t ih =>
    cases n with
    | zero => omega
    | succ n =>
      cases i with
      | zero => simp
      | succ i =>
        simp only [List.take_succ_cons, List.getD_cons_succ]
        exact ih n i (by omega)

theorem encode_team_name_length (n : List Nat) :
    (encode_team_name n).length = 32 := by
  unfold encode_team_name TEAM_NAME_LEN
  split
  · simp
    omega
  · simp
    omega

theorem readBE_be2 (p : Nat) (hp : p < 65536) : readBE (be2 p) = p := by
  unfold readBE be2
  simp only [List.foldl]
  have h1 : p / 256 < 256 := by omega
  rw [Nat.mod_eq_of_lt h1]
  omega

/-! ## C5: decode validation order -/

/-- C5: every decode checks total length first (error "...too short"
independent of content), then the magic cookie, then the type tag (both
failing with the "Invalid ..." error, which is distinct from the too-short
error), and returns fields only when all checks pass. Shown for
`unpack_request` and `unpack_server_payload`, the two operations the claim
cites. -/
theorem decode_validation_order :
    (∀ data : List Nat, data.length < REQUEST_SIZE →
        unpack_request data = Except.error "Request packet too short")
    ∧ (∀ data : List Nat, REQUEST_SIZE ≤ data.length →
        readBE (data.take 4) ≠ MAGIC_COOKIE →
        unpack_request data = Except.error "Invalid request packet")
    ∧ (∀ data : List Nat, REQUEST_SIZE ≤ data.length →
        readBE (data.take 4) = MAGIC_COOKIE → data.getD 4 0 ≠ REQUEST_TYPE →
        unpack_request data = Except.error "Invalid request packet")
    ∧ (∀ (data : List Nat) (r : Nat) (n : List Nat),
        unpack_request data = Except.ok (r, n) →
        REQUEST_SIZE ≤ data.length ∧ readBE (data.take 4) = MAGIC_COOKIE
          ∧ data.getD 4 0 = REQUEST_TYPE)
    ∧ ("Request packet too short" : String) ≠ "Invalid request packet"
    ∧ (∀ data : List Nat, data.length < SERVER_PAYLOAD_SIZE →
        unpack_server_payload data = Except.error "Server payload too short")
    ∧ (∀ data : List Nat, SERVER_PAYLOAD_SIZE ≤ data.length →
        readBE (data.take 4) ≠ MAGIC_COOKIE →
        unpack_server_payload data = Except.error "Invalid server payload")
    ∧ (∀ data : List Nat, SERVER_PAYLOAD_SIZE ≤ data.length →
        readBE (data.take 4) = MAGIC_COOKIE → data.getD 4 0 ≠ PAYLOAD_TYPE →
        unpack_server_payload data = Except.error "Invalid server payload")
    ∧ (∀ (data : List Nat) (res rank suit : Nat),
        unpack_server_payload data = Except.ok (res, rank, suit) →
        SERVER_PAYLOAD_SIZE ≤ data.length ∧ readBE (data.take 4) = MAGIC_COOKIE
          ∧ data.getD 4 0 = PAYLOAD_TYPE)
    ∧ ("Server payload too short" : String) ≠ "Invalid server payload" := by
  have hreq4 : ∀ data : List Nat, (data.take REQUEST_SIZE).take 4 = data.take 4 := by
    intro data
    rw [List.take_take]
    norm_num [REQUEST_SIZE]
  have hreqD : ∀ data : List Nat, (data.take REQUEST_SIZE).getD 4 0 = data.getD 4 0 :=
    fun data => getD_take_of_lt data REQUEST_SIZE 4 (by decide)
  have hsrv4 : ∀ data : List Nat, (data.take SERVER_PAYLOAD_SIZE).take 4 = data.take 4 := by
    intro data
    rw [List.take_take]
    norm_num [SERVER_PAYLOAD_SIZE]
  have hsrvD : ∀ data : List Nat, (data.take SERVER_PAYLOAD_SIZE).getD 4 0 = data.getD 4 0 :=
    fun data => getD_take_of_lt data SERVER_PAYLOAD_SIZE 4 (by decide)
  refine ⟨?_, ?_, ?_, ?_, by decide, ?_, ?_, ?_, ?_, by decide⟩
  · intro data h
    simp [unpack_request, h]
  · intro data h hm
    simp only [unpack_request, hreq4 data]
    rw [if_neg (not_lt.mpr h), if_pos (Or.inl hm)]
  · intro data h hm ht
    simp only [unpack_request, hreq4 data, hreqD data]
    rw [if_neg (not_lt.mpr h), if_pos (Or.inr ht)]
  · intro data r n h
    by_cases hlen : data.length < REQUEST_SIZE
    · simp [unpack_request, hlen] at h
    · simp only [unpack_request, hreq4 data, hreqD data, if_neg hlen] at h
      by_cases hv : readBE (data.take 4) ≠ MAGIC_COOKIE ∨ data.getD 4 0 ≠ REQUEST_TYPE
      · rw [if_pos hv] at h
        exact absurd h (by simp)
      · push_neg at hv
        exact ⟨by omega, hv.1, hv.2⟩
  · intro data h
    simp [unpack_server_payload, h]
  · intro data h hm
    simp only [unpack_server_payload, hsrv4 data]
    rw [if_neg (not_lt.mpr h), if_pos (Or.inl hm)]
  · intro data h hm ht
    simp only [unpack_server_payload, hsrv4 data, hsrvD data]
    rw [if_neg (not_lt.mpr h), if_pos (Or.inr ht)]
  · intro data res rank suit h
    by_cases hlen : data.length < SERVER_PAYLOAD_SIZE
    · simp [unpack_server_payload, hlen] at h
    · simp only [unpack_server_payload, hsrv4 data, hsrvD data, if_neg hlen] at h
      by_cases hv : readBE (data.take 4) ≠ MAGIC_COOKIE ∨ data.getD 4 0 ≠ PAYLOAD_TYPE
      · rw [if_pos hv] at h
        exact absurd h (by simp)
      · push_neg at hv
        exact ⟨by omega, hv.1, hv.2⟩

theorem decode_validation_order_witness :
    unpack_request [] = Except.error "Request packet too short"
    ∧ unpack_server_payload [1, 2, 3] = Except.error "Server payload too short" :=
  ⟨decode_validation_order.1 [] (by decide),
   decode_validation_order.2.2.2.2.2.1 [1, 2, 3] (by decide)⟩

/-! ## C9: trailing bytes are ignored, too-short only below fixed size -/

/-- C9: each decode looks only at the first fixed-size prefix of its input,
so any buffer at least as long as the fixed size decodes exactly as its
prefix does (trailing bytes ignored), and the "too short" error occurs
precisely when the buffer is strictly shorter than the fixed size. Shown
for the three decoders the claim cites. -/
theorem decode_trailing_ignored :
    (∀ data : List Nat, OFFER_SIZE ≤ data.length →
        unpack_offer data = unpack_offer (data.take OFFER_SIZE))
    ∧ (∀ data : List Nat,
        unpack_offer data = Except.error "Offer packet too short"
          ↔ data.length < OFFER_SIZE)
    ∧ (∀ data : List Nat, CLIENT_PAYLOAD_SIZE ≤ data.length →
        unpack_client_payload data = unpack_client_payload (data.take CLIENT_PAYLOAD_SIZE))
    ∧ (∀ data : List Nat,
        unpack_client_payload data = Except.error "Client payload too short"
          ↔ data.length < CLIENT_PAYLOAD_SIZE)
    ∧ (∀ data : List Nat, SERVER_PAYLOAD_SIZE ≤ data.length →
        unpack_server_payload data = unpack_server_payload (data.take SERVER_PAYLOAD_SIZE))
    ∧ (∀ data : List Nat,
        unpack_server_payload data = Except.error "Server payload too short"
          ↔ data.length < SERVER_PAYLOAD_SIZE) := by
  refine ⟨?_, ?_, ?_, ?_, ?_, ?_⟩
  · intro data h
    have hlen : (data.take OFFER_SIZE).length = OFFER_SIZE := by
      rw [List.length_take, Nat.min_eq_left h]
    have htt : (data.take OFFER_SIZE).take OFFER_SIZE = data.take OFFER_SIZE :=
      List.take_of_length_le (le_of_eq hlen)
    simp only [unpack_offer, htt, hlen]
    rw [if_neg (not_lt.mpr h), if_neg (lt_irrefl OFFER_SIZE)]
  · intro data
    by_cases hl : data.length < OFFER_SIZE
    · simp [unpack_offer, hl]
    · have hne : ¬ (unpack_offer data = Except.error "Offer packet too short") := by
        simp only [unpack_offer, if_neg hl]
        split
        · decide
        · simp
      simp [hne, hl]
  · intro data h
    have hlen : (data.take CLIENT_PAYLOAD_SIZE).length = CLIENT_PAYLOAD_SIZE := by
      rw [List.length_take, Nat.min_eq_left h]
    have htt : (data.take CLIENT_PAYLOAD_SIZE).take CLIENT_PAYLOAD_SIZE
        = data.take CLIENT_PAYLOAD_SIZE :=
      List.take_of_length_le (le_of_eq hlen)
    simp only [unpack_client_payload, htt, hlen]
    rw [if_neg (not_lt.mpr h), if_neg (lt_irrefl CLIENT_PAYLOAD_SIZE)]
  · intro data
    by_cases hl : data.length < CLIENT_PAYLOAD_SIZE
    · simp [unpack_client_payload, hl]
    · have hne : ¬ (unpack_client_payload data = Except.error "Client payload too short") := by
        simp only [unpack_client_payload, if_neg hl]
        split
        · decide
        · split
          · simp
          · split
            · simp
            · decide
      simp [hne, hl]
  · intro data h
    have hlen : (data.take SERVER_PAYLOAD_SIZE).length = SERVER_PAYLOAD_SIZE := by
      rw [List.length_take, Nat.min_eq_left h]
    have htt : (data.take SERVER_PAYLOAD_SIZE).take SERVER_PAYLOAD_SIZE
        = data.take SERVER_PAYLOAD_SIZE :=
      List.take_of_length_le (le_of_eq hlen)
    simp only [unpack_server_payload, htt, hlen]
    rw [if_neg (not_lt.mpr h), if_neg (lt_irrefl SERVER_PAYLOAD_SIZE)]
  · intro data
    by_cases hl : data.length < SERVER_PAYLOAD_SIZE
    · simp [unpack_server_payload, hl]
    · have hne : ¬ (unpack_server_payload data = Except.error "Server payload too short") := by
        simp only [unpack_server_payload, if_neg hl]
        split
        · decide
        · simp
      simp [hne, hl]

theorem decode_trailing_ignored_witness :
    unpack_offer (pack_offer 1234 [65] ++ [9, 9])
      = unpack_offer ((pack_offer 1234 [65] ++ [9, 9]).take OFFER_SIZE)
    ∧ unpack_offer (pack_offer 1234 [65] ++ [9, 9]) = Except.ok (1234, [65]) :=
  ⟨decode_trailing_ignored.1 (pack_offer 1234 [65] ++ [9, 9]) (by decide),
   by decide⟩

/-! ## C4: decision token recognition -/

theorem rstripNull_append_zeros (l : List Nat) :
    l = rstripNull l ++ (l.reverse.takeWhile (fun b => b == 0)).reverse := by
  conv_lhs => rw [← l.reverse_reverse,
    ← List.takeWhile_append_dropWhile (p := fun b : Nat => b == 0) (l := l.reverse),
    List.reverse_append]
  rfl

theorem rstripNull_eq_self_of_length (l m : List Nat) (h : rstripNull l = m)
    (hlen : l.length = m.length) : l = m := by
  have hsplit := rstripNull_append_zeros l
  rw [h] at hsplit
  have hz : (l.reverse.takeWhile (fun b => b == 0)).reverse.length = 0 := by
    have hlen2 := congrArg List.length hsplit
    rw [List.length_append] at hlen2
    omega
  rw [List.length_eq_zero] at hz
  rw [hsplit, hz, List.append_nil]

theorem unpack_client_payload_token (token : List Nat) (h5 : token.length = 5) :
    unpack_client_payload (be4 MAGIC_COOKIE ++ [PAYLOAD_TYPE] ++ token) =
      (if rstripNull token = DECISION_HIT then Except.ok "Hit"
       else if rstripNull token = DECISION_STAND then Except.ok "Stand"
       else Except.error "Unknown decision") := by
  rcases token with _ | ⟨t0, token⟩
  · simp at h5
  rcases token with _ | ⟨t1, token⟩
  · simp at h5
  rcases token with _ | ⟨t2, token⟩
  · simp at h5
  rcases token with _ | ⟨t3, token⟩
  · simp at h5
  rcases token with _ | ⟨t4, token⟩
  · simp at h5
  rcases token with _ | ⟨t5, token⟩
  · simp [unpack_client_payload, CLIENT_PAYLOAD_SIZE, be4, MAGIC_COOKIE, PAYLOAD_TYPE,
      readBE, List.take, List.drop, List.getD]
  · simp at h5

/-- C4: with valid magic and type, exactly the two 5-byte tokens
`b"Hittt"` and `b"Stand"` decode (to "Hit" and "Stand" respectively); any
other 5-byte token — including all-zero — fails with the "Unknown
decision" error rather than defaulting to either decision. -/
theorem client_decision_recognition (token : List Nat) (h5 : token.length = 5) :
    (unpack_client_payload (be4 MAGIC_COOKIE ++ [PAYLOAD_TYPE] ++ token) = Except.ok "Hit"
      ↔ token = DECISION_HIT)
    ∧ (unpack_client_payload (be4 MAGIC_COOKIE ++ [PAYLOAD_TYPE] ++ token) = Except.ok "Stand"
      ↔ token = DECISION_STAND)
    ∧ (token ≠ DECISION_HIT → token ≠ DECISION_STAND →
        unpack_client_payload (be4 MAGIC_COOKIE ++ [PAYLOAD_TYPE] ++ token)
          = Except.error "Unknown decision") := by
  rw [unpack_client_payload_token token h5]
  refine ⟨?_, ?_, ?_⟩
  · constructor
    · intro h
      split_ifs at h with h1 h2
      · exact rstripNull_eq_self_of_length token DECISION_HIT h1 (by rw [h5]; decide)
      · simp at h
    · intro h
      subst h
      rw [if_pos (by decide)]
  · constructor
    · intro h
      split_ifs at h with h1 h2
      · simp at h
      · exact rstripNull_eq_self_of_length token DECISION_STAND h2 (by rw [h5]; decide)
    · intro h
      subst h
      rw [if_neg (by decide), if_pos (by decide)]
  · intro hH hS
    split_ifs with h1 h2
    · exact absurd (rstripNull_eq_self_of_length token DECISION_HIT h1 (by rw [h5]; decide)) hH
    · exact absurd (rstripNull_eq_self_of_length token DECISION_STAND h2 (by rw [h5]; decide)) hS
    · rfl

theorem client_decision_recognition_witness :
    unpack_client_payload (be4 MAGIC_COOKIE ++ [PAYLOAD_TYPE] ++ [0, 0, 0, 0, 0])
      = Except.error "Unknown decision" :=
  (client_decision_recognition [0, 0, 0, 0, 0] (by decide)).2.2 (by decide) (by decide)

/-! ## C7: offer round-trip -/

theorem takeWhile_append_all (l zs : List Nat) (h : ∀ b ∈ l, (b != 0) = true) :
    (l ++ zs).takeWhile (fun b => b != 0) = l ++ zs.takeWhile (fun b => b != 0) := by
  induction l with
  | nil => simp
  | cons a t ih =>
    rw [List.cons_append, List.takeWhile_cons, if_pos (h a (List.mem_cons_self a t)),
      ih (fun b hb => h b (List.mem_cons_of_mem a hb)), List.cons_append]

theorem takeWhile_replicate_zero (k : Nat) :
    (List.replicate k (0 : Nat)).takeWhile (fun b => b != 0) = [] := by
  cases k with
  | zero => rfl
  | succ k =>
    rw [List.replicate_succ, List.takeWhile_cons]
    simp

theorem decode_encode_team_name (N : List Nat) (h0 : ∀ b ∈ N.take 32, b ≠ 0) :
    decode_team_name (encode_team_name N) = N.take 32 := by
  have hall : ∀ b ∈ N.take 32, (b != 0) = true := fun b hb => by simpa using h0 b hb
  by_cases hgt : N.length > TEAM_NAME_LEN
  · rw [encode_team_name, if_pos hgt]
    unfold decode_team_name
    have h2 := takeWhile_append_all (N.take 32) [] (by simpa using hall)
    simpa [TEAM_NAME_LEN] using h2
  · rw [encode_team_name, if_neg hgt]
    unfold decode_team_name TEAM_NAME_LEN
    simp only [TEAM_NAME_LEN, not_lt] at hgt
    have hN : N.take 32 = N := List.take_of_length_le hgt
    rw [hN] at hall
    rw [takeWhile_append_all N _ hall, takeWhile_replicate_zero, List.append_nil, hN]

theorem unpack_pack_offer (P : Nat) (N : List Nat) (hp : P < 65536) :
    unpack_offer (pack_offer P N) = Except.ok (P, decode_team_name (encode_team_name N)) := by
  have htake : (encode_team_name N).take 32 = encode_team_name N :=
    List.take_of_length_le (le_of_eq (encode_team_name_length N))
  have hlen32 := encode_team_name_length N
  simp [unpack_offer, OFFER_SIZE, pack_offer, be4, be2, MAGIC_COOKIE, OFFER_TYPE,
    readBE, List.take, List.drop, List.getD, htake, hlen32]
  omega

/-- C7 counterexample: the claim fails as stated. The 1-byte name
consisting of a single null byte has at most 32 UTF-8 bytes, yet its
round-trip yields the empty name, because decoding stops at the first
null byte. -/
theorem offer_roundtrip_counterexample :
    unpack_offer (pack_offer 5000 [0]) = Except.ok (5000, ([] : List Nat))
    ∧ ([] : List Nat) ≠ [0] := ⟨by decide, by decide⟩

/-- C7 (amended): for every port in range and every name whose first 32
bytes contain no null byte, the offer round-trip returns the port and the
name truncated to 32 bytes — in particular the name itself when it is at
most 32 bytes long — and encoding is total, always producing the fixed
39-byte packet (over-long names are silently truncated, never rejected). -/
theorem offer_roundtrip_nullfree (P : Nat) (N : List Nat) (hp : P < 65536)
    (h0 : ∀ b ∈ N.take 32, b ≠ 0) :
    (pack_offer P N).length = 39
    ∧ unpack_offer (pack_offer P N) = Except.ok (P, N.take 32)
    ∧ (N.length ≤ 32 → unpack_offer (pack_offer P N) = Except.ok (P, N)) := by
  have h1 := unpack_pack_offer P N hp
  rw [decode_encode_team_name N h0] at h1
  refine ⟨?_, h1, ?_⟩
  · simp [pack_offer, be4, be2, encode_team_name_length]
  · intro hle
    rw [h1, List.take_of_length_le hle]

theorem offer_roundtrip_nullfree_witness :
    (pack_offer 777 [66, 67]).length = 39
    ∧ unpack_offer (pack_offer 777 [66, 67]) = Except.ok (777, [66, 67]) :=
  ⟨(offer_roundtrip_nullfree 777 [66, 67] (by decide) (by decide)).1,
   (offer_roundtrip_nullfree 777 [66, 67] (by decide) (by decide)).2.2 (by decide)⟩

/-! ## C8: fixed message sizes -/

/-- C8: every encoded Request is exactly 38 bytes, every encoded Client
Decision exactly 10 bytes and every encoded Server Event exactly 9 bytes;
the decoders' fixed sizes and the byte counts each receiver reads per
message (`recv_exact` sizes in server.py and client.py) are these same
numbers. -/
theorem message_sizes :
    (∀ (r : Nat) (n : List Nat), (pack_request r n).length = 38)
    ∧ (∀ (s : String) (out : List Nat),
        pack_client_payload s = Except.ok out → out.length = 10)
    ∧ (∀ res rank suit : Nat, (pack_server_payload res rank suit).length = 9)
    ∧ REQUEST_SIZE = 38 ∧ CLIENT_PAYLOAD_SIZE = 10 ∧ SERVER_PAYLOAD_SIZE = 9
    ∧ serverReadRequestSize = REQUEST_SIZE
    ∧ serverReadClientPayloadSize = CLIENT_PAYLOAD_SIZE
    ∧ clientReadServerPayloadSize = SERVER_PAYLOAD_SIZE := by
  refine ⟨?_, ?_, ?_, rfl, rfl, rfl, rfl, rfl, rfl⟩
  · intro r n
    simp [pack_request, be4, encode_team_name_length]
  · intro s out h
    unfold pack_client_payload at h
    split_ifs at h <;> injection h with h <;> subst h <;> decide
  · intro res rank suit
    simp [pack_server_payload, be4, be2]

theorem message_sizes_witness :
    (be4 MAGIC_COOKIE ++ [PAYLOAD_TYPE] ++ DECISION_HIT).length = 10 :=
  message_sizes.2.1 "hit" (be4 MAGIC_COOKIE ++ [PAYLOAD_TYPE] ++ DECISION_HIT) (by decide)

/-! ## C10: the rounds byte is not range-checked -/

/-- C10: `unpack_request` returns the rounds byte unchanged for every
value 0..255 — any Request with valid magic and type decodes successfully,
including `rounds = 0`; with `rounds = 0` the session loop plays zero
rounds and completes normally. -/
theorem rounds_byte_unchecked (b : Nat) (name : List Nat) (_hb : b ≤ 255) :
    unpack_request (pack_request b name)
      = Except.ok (b, decode_team_name (encode_team_name name))
    ∧ (∀ inputs : List (List Card × List Decision), runRounds 0 inputs = some []) := by
  constructor
  · have htake : (encode_team_name name).take 32 = encode_team_name name :=
      List.take_of_length_le (le_of_eq (encode_team_name_length name))
    have hlen32 := encode_team_name_length name
    simp [unpack_request, REQUEST_SIZE, pack_request, be4, MAGIC_COOKIE, REQUEST_TYPE,
      readBE, List.take, List.drop, List.getD, htake, hlen32]
  · intro inputs
    rfl

theorem rounds_byte_unchecked_witness :
    unpack_request (pack_request 0 []) = Except.ok (0, ([] : List Nat))
    ∧ runRounds 0 [] = some [] :=
  ⟨by rw [(rounds_byte_unchecked 0 [] (by decide)).1]; decide,
   (rounds_byte_unchecked 0 [] (by decide)).2 []⟩

/-! ## C2: card and hand values -/

/-- C2: `card_value` maps rank 1 to 11, ranks ≥ 11 to 10 and other ranks to
themselves, and `hand_value` is the plain sum of `card_value` over the ranks
of the hand, with no soft-Ace reduction: two Aces score 22, not 12. -/
theorem card_value_hand_value_spec :
    card_value 1 = 11
    ∧ (∀ r : Nat, 11 ≤ r → card_value r = 10)
    ∧ (∀ r : Nat, 2 ≤ r → r ≤ 10 → card_value r = r)
    ∧ (∀ hand : List Card, hand_value hand = (hand.map (fun c => card_value c.1)).sum)
    ∧ hand_value [(1, 0), (1, 1)] = 22
    ∧ hand_value [(1, 0), (1, 1)] ≠ 12 := by
  refine ⟨rfl, ?_, ?_, fun _ => rfl, by decide, by decide⟩
  · intro r hr
    unfold card_value
    rw [if_neg (by omega), if_pos (by omega)]
  · intro r h2 h10
    unfold card_value
    rw [if_neg (by omega), if_neg (by omega)]

theorem card_value_hand_value_spec_witness :
    card_value 12 = 10 ∧ card_value 7 = 7 :=
  ⟨card_value_hand_value_spec.2.1 12 (by norm_num),
   card_value_hand_value_spec.2.2.1 7 (by norm_num) (by norm_num)⟩

/-! ## C6: deck invariants -/

/-- C6: a fresh deck holds exactly the 52 distinct (rank, suit) pairs with
rank 1..13 and suit 0..3; each `draw` removes and returns one card, strictly
decreasing the count of that card and the size of the deck, failing only on
an empty deck; and 52 successive draws from any shuffle of the fresh deck
produce each card exactly once (a permutation of the full deck) and leave
the deck empty. -/
theorem deck_properties :
    Deck.initCards.length = 52
    ∧ Deck.initCards.Nodup
    ∧ (∀ r s : Nat, (r, s) ∈ Deck.initCards ↔ 1 ≤ r ∧ r ≤ 13 ∧ s ≤ 3)
    ∧ (∀ (d d' : List Card) (c : Card), Deck.draw d = some (c, d') →
        d'.length + 1 = d.length ∧ d'.count c + 1 = d.count c)
    ∧ (∀ d : List Card, Deck.draw d = none ↔ d = [])
    ∧ (∀ d : List Card, d.Perm Deck.initCards →
        drawSeq 52 d = some (d.reverse, []) ∧ d.reverse.Perm Deck.initCards) := by
  refine ⟨by decide, by decide, ?_, ?_, Deck.draw_none_iff, ?_⟩
  · intro r s
    simp only [Deck.initCards, SUITS, RANKS, List.mem_flatMap, List.mem_map,
      List.mem_range'_1, Prod.mk.injEq]
    constructor
    · rintro ⟨su, hsu, rk, ⟨hrk1, hrk2⟩, rfl, rfl⟩
      simp at hsu
      omega
    · rintro ⟨hr1, hr2, hs⟩
      refine ⟨s, ?_, r, ⟨hr1, by omega⟩, rfl, rfl⟩
      simp
      omega
  · intro d d' c h
    have hd := Deck.draw_some d c d' h
    subst hd
    constructor
    · simp
    · simp [List.count_append]
  · intro d hperm
    have hlen : d.length = 52 := by
      rw [hperm.length_eq]
      decide
    exact ⟨drawSeq_full 52 d hlen, (List.reverse_perm d).trans hperm⟩

theorem deck_properties_witness :
    drawSeq 52 Deck.initCards = some (Deck.initCards.reverse, [])
    ∧ Deck.initCards.reverse.Perm Deck.initCards :=
  deck_properties.2.2.2.2.2 Deck.initCards (List.Perm.refl _)

/-! ## Round engine lemmas (for C1 and C3) -/

theorem dealerLoop_spec : ∀ (pile dealer dl pileRest drawn : List Card),
    dealerLoop dealer pile = some (dl, pileRest, drawn) →
    dl = dealer ++ drawn ∧ 17 ≤ hand_value dl
      ∧ ∀ k, k < drawn.length → hand_value (dealer ++ drawn.take k) < 17 := by
  intro pile
  induction pile with
  | nil =>
    intro dealer dl pr drawn h
    unfold dealerLoop at h
    split_ifs at h with h17
    cases h
    exact ⟨by simp, by omega, by simp⟩
  | cons c rest ih =>
    intro dealer dl pr drawn h
    unfold dealerLoop at h
    split_ifs at h with h17
    · cases hrec : dealerLoop (dealer ++ [c]) rest with
      | none => rw [hrec] at h; simp at h
      | some out =>
        obtain ⟨dl', pr', drawn'⟩ := out
        rw [hrec] at h
        simp at h
        obtain ⟨rfl, rfl, rfl⟩ := h
        obtain ⟨hdl, h17', hpre⟩ := ih (dealer ++ [c]) dl' pr' drawn' hrec
        refine ⟨by rw [hdl]; simp, h17', ?_⟩
        intro k hk
        cases k with
        | zero => simpa using h17
        | succ j =>
          rw [List.take_succ_cons, List.append_cons]
          exact hpre j (by simpa using hk)
    · cases h
      exact ⟨by simp, by omega, by simp⟩

theorem dealerTurn_spec (dealer deck dl deckRest drawn : List Card)
    (h : dealerTurn dealer deck = some (dl, deckRest, drawn)) :
    dl = dealer ++ drawn ∧ 17 ≤ hand_value dl
      ∧ ∀ k, k < drawn.length → hand_value (dealer ++ drawn.take k) < 17 := by
  unfold dealerTurn at h
  cases hl : dealerLoop dealer deck.reverse with
  | none => rw [hl] at h; simp at h
  | some out =>
    obtain ⟨dl', pr, drawn'⟩ := out
    rw [hl] at h
    simp at h
    obtain ⟨rfl, -, rfl⟩ := h
    exact dealerLoop_spec deck.reverse dealer dl' pr drawn' hl

theorem dealerStep_spec (bust : Bool) (dealer deck dl dk drawn : List Card)
    (h : dealerStep bust dealer deck = some (dl, dk, drawn)) :
    dl = dealer ++ drawn
    ∧ (bust = true → drawn = [])
    ∧ (bust = false → 17 ≤ hand_value dl
        ∧ ∀ k, k < drawn.length → hand_value (dealer ++ drawn.take k) < 17) := by
  cases bust with
  | false =>
    rw [dealerStep, if_neg (by simp)] at h
    obtain ⟨h1, h2, h3⟩ := dealerTurn_spec dealer deck dl dk drawn h
    exact ⟨h1, by simp, fun _ => ⟨h2, h3⟩⟩
  | true =>
    rw [dealerStep, if_pos rfl] at h
    cases h
    exact ⟨by simp, fun _ => rfl, by simp⟩

theorem decideResult_ne_notOver (b : Bool) (dt pt : Nat) :
    decideResult b dt pt ≠ RESULT_NOT_OVER := by
  unfold decideResult RESULT_NOT_OVER RESULT_LOSS RESULT_WIN RESULT_TIE
  split_ifs <;> omega

theorem filter_terminal_map (l : List Card) :
    (l.map notOverMsg).filter (fun m => m.1 ≠ RESULT_NOT_OVER) = [] := by
  induction l with
  | nil => rfl
  | cons c t ih =>
    rw [List.map_cons, List.filter_cons,
      if_neg (by simp [notOverMsg, RESULT_NOT_OVER])]
    exact ih

theorem dropLast_append_singleton (l : List Msg) (x : Msg) :
    (l ++ [x]).dropLast = l := by
  simp

theorem getLast?_append_singleton (l : List Msg) (x : Msg) :
    (l ++ [x]).getLast? = some x := by
  simp

/-- Inversion of a completed round: the exact sequence of messages sent,
the outcome formula, and the dealer-phase facts. -/
theorem playRound_shape (deck : List Card) (ds : List Decision) (tr : RoundTrace)
    (h : playRound deck ds = some tr) :
    ∃ p1 p2 d1 : Card,
      tr.result = decideResult tr.playerBust (hand_value tr.dealerHand) (hand_value tr.playerHand)
      ∧ tr.msgs = [notOverMsg p1, notOverMsg p2, notOverMsg d1]
          ++ tr.playerDrawn.map notOverMsg
          ++ [notOverMsg tr.hidden]
          ++ tr.dealerDrawn.map notOverMsg
          ++ [(tr.result, 0, 0)]
      ∧ tr.dealerHand = [d1, tr.hidden] ++ tr.dealerDrawn
      ∧ (tr.playerBust = true → tr.dealerDrawn = [])
      ∧ (tr.playerBust = false →
          17 ≤ hand_value tr.dealerHand
          ∧ ∀ k, k < tr.dealerDrawn.length →
              hand_value ([d1, tr.hidden] ++ tr.dealerDrawn.take k) < 17) := by
  unfold playRound at h
  cases h1 : Deck.draw deck with
  | none => rw [h1] at h; simp at h
  | some x1 =>
  obtain ⟨p1, deck1⟩ := x1
  rw [h1] at h
  simp only [] at h
  cases h2 : Deck.draw deck1 with
  | none => rw [h2] at h; simp at h
  | some x2 =>
  obtain ⟨p2, deck2⟩ := x2
  rw [h2] at h
  simp only [] at h
  cases h3 : Deck.draw deck2 with
  | none => rw [h3] at h; simp at h
  | some x3 =>
  obtain ⟨d1, deck3⟩ := x3
  rw [h3] at h
  simp only [] at h
  cases h4 : Deck.draw deck3 with
  | none => rw [h4] at h; simp at h
  | some x4 =>
  obtain ⟨d2, deck4⟩ := x4
  rw [h4] at h
  simp only [] at h
  cases h5 : playerTurn ds [p1, p2] deck4 with
  | none => rw [h5] at h; simp at h
  | some x5 =>
  obtain ⟨ph, deck5, bust, pDrawn⟩ := x5
  rw [h5] at h
  simp only [] at h
  cases h6 : dealerStep bust [d1, d2] deck5 with
  | none => rw [h6] at h; simp at h
  | some x6 =>
  obtain ⟨dh, deck6, dDrawn⟩ := x6
  rw [h6] at h
  simp only [] at h
  obtain rfl : tr = {
      playerHand := ph
      dealerHand := dh
      hidden := d2
      playerBust := bust
      playerDrawn := pDrawn
      dealerDrawn := dDrawn
      result := decideResult bust (hand_value dh) (hand_value ph)
      msgs := [notOverMsg p1, notOverMsg p2, notOverMsg d1]
                ++ pDrawn.map notOverMsg
                ++ [notOverMsg d2]
                ++ dDrawn.map notOverMsg
                ++ [(decideResult bust (hand_value dh) (hand_value ph), 0, 0)] } :=
    (Option.some.inj h).symm
  obtain ⟨hdl, hbust, hnb⟩ := dealerStep_spec bust [d1, d2] deck5 dh deck6 dDrawn h6
  refine ⟨p1, p2, d1, rfl, rfl, by simpa using hdl, hbust, ?_⟩
  intro hb
  obtain ⟨h17, hpre⟩ := hnb hb
  exact ⟨h17, fun k hk => by simpa using hpre k hk⟩

/-! ## C1: round outcome and the single terminal event -/

/-- C1: a completed round's outcome is LOSS on player bust, else WIN when
the dealer total exceeds 21, else LOSS/WIN by comparing totals, else TIE;
the round's messages contain exactly one event with a non-not-over result
code — the last message, carrying the outcome with rank = 0 and suit = 0 —
and every other message is a not-over event. -/
theorem round_outcome_terminal (deck : List Card) (ds : List Decision)
    (tr : RoundTrace) (h : playRound deck ds = some tr) :
    (tr.result = if tr.playerBust then RESULT_LOSS
      else if hand_value tr.dealerHand > 21 then RESULT_WIN
      else if hand_value tr.dealerHand > hand_value tr.playerHand then RESULT_LOSS
      else if hand_value tr.dealerHand < hand_value tr.playerHand then RESULT_WIN
      else RESULT_TIE)
    ∧ tr.result ≠ RESULT_NOT_OVER
    ∧ tr.msgs.filter (fun m => m.1 ≠ RESULT_NOT_OVER) = [(tr.result, 0, 0)]
    ∧ tr.msgs.getLast? = some (tr.result, 0, 0)
    ∧ (∀ m ∈ tr.msgs.dropLast, m.1 = RESULT_NOT_OVER) := by
  obtain ⟨p1, p2, d1, hres, hmsgs, hdh, hbust, hnb⟩ := playRound_shape deck ds tr h
  have hr0 : tr.result ≠ RESULT_NOT_OVER := by
    rw [hres]
    exact decideResult_ne_notOver _ _ _
  have hdrop : tr.msgs.dropLast
      = [notOverMsg p1, notOverMsg p2, notOverMsg d1]
          ++ tr.playerDrawn.map notOverMsg
          ++ [notOverMsg tr.hidden]
          ++ tr.dealerDrawn.map notOverMsg := by
    have hc := dropLast_append_singleton
      ([notOverMsg p1, notOverMsg p2, notOverMsg d1]
          ++ tr.playerDrawn.map notOverMsg
          ++ [notOverMsg tr.hidden]
          ++ tr.dealerDrawn.map notOverMsg)
      ((tr.result, 0, 0) : Msg)
    rw [hmsgs]
    simpa [List.append_assoc] using hc
  have hsingle : List.filter (fun m : Msg => m.1 ≠ RESULT_NOT_OVER) [(tr.result, 0, 0)]
      = [(tr.result, 0, 0)] := by
    rw [List.filter_cons, List.filter_nil,
      if_pos (by simp only [decide_eq_true_eq]; exact hr0)]
  refine ⟨by rw [hres]; rfl, hr0, ?_, ?_, ?_⟩
  · rw [hmsgs]
    rw [show [notOverMsg p1, notOverMsg p2, notOverMsg d1]
        = List.map notOverMsg [p1, p2, d1] from rfl,
      show [notOverMsg tr.hidden] = List.map notOverMsg [tr.hidden] from rfl]
    simp only [List.filter_append, filter_terminal_map, hsingle, List.nil_append]
  · have hc := getLast?_append_singleton
      ([notOverMsg p1, notOverMsg p2, notOverMsg d1]
          ++ tr.playerDrawn.map notOverMsg
          ++ [notOverMsg tr.hidden]
          ++ tr.dealerDrawn.map notOverMsg)
      ((tr.result, 0, 0) : Msg)
    rw [hmsgs]
    simpa [List.append_assoc] using hc
  · intro m hm
    rw [hdrop] at hm
    simp only [List.append_assoc, List.mem_append, List.mem_cons, List.mem_map,
      List.mem_singleton, List.not_mem_nil, or_false] at hm
    rcases hm with (rfl | rfl | rfl) | ⟨c, -, rfl⟩ | rfl | ⟨c, -, rfl⟩ <;> rfl

theorem round_outcome_terminal_witness :
    traceA.msgs.filter (fun m => m.1 ≠ RESULT_NOT_OVER) = [(traceA.result, 0, 0)]
    ∧ traceA.result = RESULT_WIN :=
  ⟨(round_outcome_terminal deckA [Decision.stand] traceA (by decide)).2.2.1, by decide⟩

/-! ## C3: dealer reveal and the stand-on-17 rule -/

/-- C3: after the player turn the dealer's hidden card is always sent as a
not-over event (whether or not the player busted); the dealer then draws —
each card appended to the dealer hand and sent as a not-over event — if and
only if the player did not bust, drawing exactly while the dealer total is
below 17 and stopping at the first total ≥ 17; on a player bust no dealer
card is drawn beyond the reveal. -/
theorem dealer_reveal_and_stand17 (deck : List Card) (ds : List Decision)
    (tr : RoundTrace) (h : playRound deck ds = some tr) :
    (∃ pre, tr.msgs = pre ++ [notOverMsg tr.hidden]
        ++ tr.dealerDrawn.map notOverMsg ++ [(tr.result, 0, 0)])
    ∧ tr.dealerHand = tr.dealerHand.take 2 ++ tr.dealerDrawn
    ∧ (tr.playerBust = true → tr.dealerDrawn = [])
    ∧ (tr.playerBust = false →
        17 ≤ hand_value tr.dealerHand
        ∧ ∀ k, k < tr.dealerDrawn.length →
            hand_value (tr.dealerHand.take 2 ++ tr.dealerDrawn.take k) < 17) := by
  obtain ⟨p1, p2, d1, hres, hmsgs, hdh, hbust, hnb⟩ := playRound_shape deck ds tr h
  have htake2 : tr.dealerHand.take 2 = [d1, tr.hidden] := by rw [hdh]; rfl
  refine ⟨⟨[notOverMsg p1, notOverMsg p2, notOverMsg d1]
      ++ tr.playerDrawn.map notOverMsg, ?_⟩, ?_, hbust, ?_⟩
  · rw [hmsgs]
  · rw [htake2]
    exact hdh
  · intro hb
    obtain ⟨h17, hpre⟩ := hnb hb
    rw [htake2]
    exact ⟨h17, hpre⟩

theorem dealer_reveal_and_stand17_witness :
    17 ≤ hand_value traceB.dealerHand ∧ traceB.dealerDrawn = [(5, 2)] :=
  ⟨((dealer_reveal_and_stand17 deckB [Decision.stand] traceB (by decide)).2.2.2
      (by decide)).1,
   by decide⟩

end Blackjack
